import Mathlib

/- Verification of the metadata-extraction pipeline in src/preprocess.py.
   Python strings are modelled as lists of Unicode code points (Nat), because
   Python str values may contain lone surrogate code units (U+D800 - U+DFFF)
   that Lean's Char cannot represent.  The LLM completion capability is an
   external collaborator and is modelled as an explicit function parameter
   returning either a response text or an exception message. -/

/-- A Python string: a list of Unicode code points. -/
abbrev PyStr := List Nat

/-- Build a PyStr from a Lean string literal (all our literals are
surrogate-free, so this is exact). -/
def pstr (s : String) : PyStr := s.data.map Char.toNat

/-- Is the code point a surrogate (U+D800 - U+DFFF)?  These are exactly the
code points that make `text.encode("utf-8", "strict")` raise. -/
def isSurrogate (c : Nat) : Bool := 0xD800 ≤ c && c ≤ 0xDFFF

/-- Embeds `clean_unicode` (src/preprocess.py lines 44-66) on strings.
If the string is strictly UTF-8-encodable (i.e. contains no surrogate code
unit) it is returned unchanged; otherwise every surrogate code unit is
replaced by U+FFFD, mirroring `re.sub(r"[\ud800-\udfff]", ...)`.  The final
`except Exception` arm of the source is unreachable (encoding a str raises
only UnicodeEncodeError, which the first arm catches), so it has no image
here.  The function is total: it never raises. -/
def clean_unicode (s : PyStr) : PyStr :=
  if s.any isSurrogate then
    s.map (fun c => if isSurrogate c then 0xFFFD else c)
  else s

/-- ASCII lowercasing of one code point; models Python `str.lower` on the
ASCII range (sufficient for the retry keywords and heuristics, which are all
ASCII). -/
def toLowerCp (c : Nat) : Nat := if 65 ≤ c && c ≤ 90 then c + 32 else c

/-- Models Python `str.lower`. -/
def pyLower (s : PyStr) : PyStr := s.map toLowerCp

/-- Does the first list occur as a prefix of the second?  (Helper for
substring search.) -/
def startsWithP : PyStr → PyStr → Bool
  | [], _ => true
  | _ :: _, [] => false
  | a :: as, b :: bs => a == b && startsWithP as bs

/-- Models Python's substring test `needle in hay`. -/
def strIn (n : PyStr) : PyStr → Bool
  | [] => startsWithP n []
  | c :: t => startsWithP n (c :: t) || strIn n t

/-- Models Python `s.split("\n")` (code point 10). -/
def pySplitNl : PyStr → List PyStr
  | [] => [[]]
  | c :: t =>
    if c == 10 then [] :: pySplitNl t
    else
      match pySplitNl t with
      | h :: r => (c :: h) :: r
      | [] => [[c]]

/-- The fixed French function-word list of `get_fallback_metadata`
(src/preprocess.py line 164). -/
def french_words : List PyStr :=
  [pstr "le", pstr "la", pstr "les", pstr "de", pstr "du", pstr "des",
   pstr "et", pstr "est", pstr "une", pstr "un", pstr "ce", pstr "cette"]

/-- The count `sum(1 for word in french_words if word in text_lower)`:
the number of list words that occur as substrings of the lowercased text. -/
def french_count (post : PyStr) : Nat :=
  french_words.countP (fun w => strIn w (pyLower post))

/-- The language classification of `get_fallback_metadata`:
`"French" if french_count > 3 else "English"`. -/
def fallback_language (post : PyStr) : PyStr :=
  if french_count post > 3 then pstr "French" else pstr "English"

/-- The keyword-to-tag table `linkedin_keywords` of `get_fallback_metadata`
(src/preprocess.py lines 171-178), in source (dict-insertion) order. -/
def linkedin_keywords : List (PyStr × List PyStr) :=
  [(pstr "career", [pstr "career", pstr "job", pstr "work", pstr "employment"]),
   (pstr "business", [pstr "business", pstr "company", pstr "startup", pstr "entrepreneur"]),
   (pstr "tech", [pstr "technology", pstr "tech", pstr "ai", pstr "digital", pstr "software"]),
   (pstr "leadership", [pstr "leadership", pstr "management", pstr "team", pstr "leader"]),
   (pstr "marketing", [pstr "marketing", pstr "brand", pstr "social media"]),
   (pstr "networking", [pstr "network", pstr "connection", pstr "professional"])]

/-- The tag-collection loop of `get_fallback_metadata` (lines 180-185):
append the tag of each table entry any of whose keywords occurs in the
lowercased post, breaking once two tags are collected. -/
def collectTags (low : PyStr) : List (PyStr × List PyStr) → List PyStr → List PyStr
  | [], acc => acc
  | (tag, kws) :: rest, acc =>
    if kws.any (fun k => strIn k low) then
      let acc' := acc ++ [tag]
      if 2 ≤ acc'.length then acc' else collectTags low rest acc'
    else collectTags low rest acc

/-- A parsed Python/JSON value, as produced by `json.loads` / `json.load`. -/
inductive PyJson where
  | null : PyJson
  | bool : Bool → PyJson
  | int : Int → PyJson
  | str : PyStr → PyJson
  | arr : List PyJson → PyJson
  | obj : List (PyStr × PyJson) → PyJson

/-- Embeds `get_fallback_metadata` (src/preprocess.py lines 158-191):
the deterministic heuristic metadata dict.  Never fails. -/
def get_fallback_metadata (post : PyStr) : PyJson :=
  PyJson.obj
    [(pstr "line_count", PyJson.int (pySplitNl post).length),
     (pstr "language", PyJson.str (fallback_language post)),
     (pstr "tags", PyJson.arr ((collectTags (pyLower post) linkedin_keywords []).map PyJson.str))]

/- ===== Response Parser: extract_json_from_text (src/preprocess.py 69-92) =====
   The three regex strategies are embedded as direct string algorithms with
   the exact backtracking semantics of the Python patterns:
   method 1: re.search of r"```(?:json)?\s*(\{.*?\})\s*```" (DOTALL|IGNORECASE),
   method 2: re.findall of r"\{[^{}]*(?:\{[^{}]*\}[^{}]*)*\}" then longest,
   method 3: first "{" to last "}".  Regex whitespace \s and str.strip are
   modelled on the ASCII whitespace set (all inputs of interest are ASCII). -/

/-- Regex whitespace class (ASCII part of Python's re \s). -/
def isWsRe (c : Nat) : Bool :=
  c == 32 || c == 9 || c == 10 || c == 13 || c == 12 || c == 11

/-- Models Python `str.strip()` (ASCII whitespace). -/
def pyStrip (s : PyStr) : PyStr :=
  ((s.dropWhile isWsRe).reverse.dropWhile isWsRe).reverse

/-- After the group's closing brace, the pattern requires `\s*` then three
backticks.  Since a backtick is not whitespace, the greedy `\s*` with
backtracking is equivalent to: skip the maximal whitespace run, then require
the literal fence. -/
def fenceAfterWs (s : PyStr) : Bool :=
  startsWithP (pstr "```") (s.dropWhile isWsRe)

/-- The lazy part `.*?\}` followed by `\s*` + fence: scanning left to right,
stop at the first "}" (code 125) whose continuation matches `\s*` + fence;
any other character (including "}" with a failing continuation) is consumed
by the lazy dot.  Returns the group content before that "}". -/
def lazyClose : PyStr → Option PyStr
  | [] => none
  | c :: t =>
    if c == 125 && fenceAfterWs t then some []
    else
      match lazyClose t with
      | some cs => some (c :: cs)
      | none => none

/-- After the optional "json" label: `\s*` then the group `(\{.*?\})` then
`\s*` + closing fence.  Greedy `\s*` before the non-whitespace "{" is
deterministic maximal-run skipping. -/
def tryBody (s : PyStr) : Option PyStr :=
  match s.dropWhile isWsRe with
  | c :: t =>
    if c == 123 then (lazyClose t).map (fun cs => 123 :: (cs ++ [125]))
    else none
  | [] => none

/-- Case-insensitive (ASCII) prefix test, for the IGNORECASE "json" label. -/
def startsWithCI : PyStr → PyStr → Bool
  | [], _ => true
  | _ :: _, [] => false
  | a :: as, b :: bs => (toLowerCp a == toLowerCp b) && startsWithCI as bs

/-- The part of method 1 after the opening fence: greedy `(?:json)?` tries to
consume the label first and falls back to the unlabeled alternative. -/
def tryFence (s : PyStr) : Option PyStr :=
  match (if startsWithCI (pstr "json") s then tryBody (s.drop 4) else none) with
  | some g => some g
  | none => tryBody s

/-- Method 1: leftmost match of the fenced-block pattern; a match can only
begin at an opening fence.  Returns group(1) (unstripped). -/
def method1 : PyStr → Option PyStr
  | [] => none
  | c :: t =>
    if startsWithP (pstr "```") (c :: t) then
      match tryFence (t.drop 2) with
      | some g => some g
      | none => method1 t
    else method1 t

/-- A single match attempt of method 2's pattern starting just after an
opening "{" at depth 1.  The pattern admits exactly one level of nesting:
a second "{" while already inside an inner group, or end of input, fails the
attempt; the first "}" at depth 1 ends the match.  Returns (consumed match
tail including the closing brace, rest of the input). -/
def m2scan : PyStr → Bool → Option (PyStr × PyStr)
  | [], _ => none
  | c :: t, inner =>
    if c == 123 then
      if inner then none
      else (m2scan t true).map (fun p => (c :: p.1, p.2))
    else if c == 125 then
      if inner then (m2scan t false).map (fun p => (c :: p.1, p.2))
      else some ([c], t)
    else (m2scan t inner).map (fun p => (c :: p.1, p.2))

/-- `re.findall` of method 2's pattern: scan left to right; a match can only
start at a "{"; on success resume after the match, on failure advance one
character.  Fuel-indexed for structural termination; `findAll2` supplies
fuel `length + 1`, which is sufficient since every step consumes at least
one character. -/
def findAll2Fuel : Nat → PyStr → List PyStr
  | 0, _ => []
  | _, [] => []
  | f + 1, c :: t =>
    if c == 123 then
      match m2scan t false with
      | some (a, r) => (c :: a) :: findAll2Fuel f r
      | none => findAll2Fuel f t
    else findAll2Fuel f t

/-- All matches of method 2's standalone-object pattern. -/
def findAll2 (s : PyStr) : List PyStr := findAll2Fuel (s.length + 1) s

/-- `max(matches, key=len)`: the first longest element. -/
def maxByLen : List PyStr → Option PyStr
  | [] => none
  | x :: xs => some (xs.foldl (fun b a => if a.length > b.length then a else b) x)

/-- Method 2: the longest standalone JSON-like match, unstripped. -/
def method2 (s : PyStr) : Option PyStr := maxByLen (findAll2 s)

/-- Models Python `text.find(c)` (as an Option instead of the -1 sentinel). -/
def pyFindIdx (c : Nat) : PyStr → Option Nat
  | [] => none
  | a :: t => if a == c then some 0 else (pyFindIdx c t).map (· + 1)

/-- Models Python `text.rfind(c)` (as an Option instead of the -1 sentinel). -/
def pyRfindIdx (c : Nat) : PyStr → Option Nat
  | [] => none
  | a :: t =>
    match pyRfindIdx c t with
    | some i => some (i + 1)
    | none => if a == c then some 0 else none

/-- Method 3: the slice from the first "{" to the last "}", stripped, when
both exist and the first precedes the last. -/
def method3 (s : PyStr) : Option PyStr :=
  match pyFindIdx 123 s, pyRfindIdx 125 s with
  | some st, some en =>
    if st < en then some (pyStrip ((s.take (en + 1)).drop st)) else none
  | _, _ => none

/-- Embeds `extract_json_from_text` (src/preprocess.py lines 69-92): the
three strategies applied in order until one succeeds, each result stripped. -/
def extract_json_from_text (s : PyStr) : Option PyStr :=
  match method1 s with
  | some g => some (pyStrip g)
  | none =>
    match method2 s with
    | some m => some (pyStrip m)
    | none => method3 s

/- ===== json.loads (strict structured-data decoding) =====
   A recursive-descent parser for the JSON fragment the pipeline exchanges:
   objects, arrays, strings (with the basic escapes), integers, true, false,
   null.  Floats and the rarer escape forms are outside the model (no claim
   depends on them).  Like json.loads, the whole input (up to trailing
   whitespace) must be consumed.  Fuel-indexed for structural termination;
   the nesting depth is bounded by the input length, so fuel length+1 is
   always sufficient. -/

/-- JSON whitespace (space, tab, LF, CR), as accepted by json.loads. -/
def isWsJ (c : Nat) : Bool := c == 32 || c == 9 || c == 10 || c == 13

/-- Is the code point an ASCII digit? -/
def isDigitCp (c : Nat) : Bool := 48 ≤ c && c ≤ 57

/-- Decimal value of a digit run. -/
def digitsVal : PyStr → Nat → Nat
  | [], acc => acc
  | c :: t, acc => digitsVal t (acc * 10 + (c - 48))

/-- Parse a nonempty digit run as a natural number. -/
def parseNat (s : PyStr) : Option (Nat × PyStr) :=
  match s.takeWhile isDigitCp with
  | [] => none
  | ds => some (digitsVal ds 0, s.dropWhile isDigitCp)

/-- Parse the body of a JSON string after the opening quote, handling the
escapes \" \\ \n \t \r (code 34 is the quote, 92 the backslash). -/
def parseStringBody : PyStr → Option (PyStr × PyStr)
  | [] => none
  | c :: t =>
    if c == 34 then some ([], t)
    else if c == 92 then
      match t with
      | 34 :: t2 => (parseStringBody t2).map (fun p => (34 :: p.1, p.2))
      | 92 :: t2 => (parseStringBody t2).map (fun p => (92 :: p.1, p.2))
      | 110 :: t2 => (parseStringBody t2).map (fun p => (10 :: p.1, p.2))
      | 116 :: t2 => (parseStringBody t2).map (fun p => (9 :: p.1, p.2))
      | 114 :: t2 => (parseStringBody t2).map (fun p => (13 :: p.1, p.2))
      | _ => none
    else (parseStringBody t).map (fun p => (c :: p.1, p.2))

mutual

/-- Parse one JSON value (after skipping leading whitespace). -/
def parseVal : Nat → PyStr → Option (PyJson × PyStr)
  | 0, _ => none
  | f + 1, s =>
    match s.dropWhile isWsJ with
    | [] => none
    | c :: t =>
      if c == 123 then
        match t.dropWhile isWsJ with
        | 125 :: t2 => some (PyJson.obj [], t2)
        | _ => (parseMembers f t).map (fun p => (PyJson.obj p.1, p.2))
      else if c == 91 then
        match t.dropWhile isWsJ with
        | 93 :: t2 => some (PyJson.arr [], t2)
        | _ => (parseItems f t).map (fun p => (PyJson.arr p.1, p.2))
      else if c == 34 then
        (parseStringBody t).map (fun p => (PyJson.str p.1, p.2))
      else if c == 116 then
        if startsWithP (pstr "rue") t then some (PyJson.bool true, t.drop 3) else none
      else if c == 102 then
        if startsWithP (pstr "alse") t then some (PyJson.bool false, t.drop 4) else none
      else if c == 110 then
        if startsWithP (pstr "ull") t then some (PyJson.null, t.drop 3) else none
      else if c == 45 then
        (parseNat t).map (fun p => (PyJson.int (-(p.1 : Int)), p.2))
      else if isDigitCp c then
        (parseNat (c :: t)).map (fun p => (PyJson.int (p.1 : Int), p.2))
      else none

/-- Parse the members of a JSON object after the opening brace (nonempty
case), consuming the closing brace. -/
def parseMembers : Nat → PyStr → Option (List (PyStr × PyJson) × PyStr)
  | 0, _ => none
  | f + 1, s =>
    match s.dropWhile isWsJ with
    | 34 :: t =>
      match parseStringBody t with
      | none => none
      | some (key, t2) =>
        match t2.dropWhile isWsJ with
        | 58 :: t3 =>
          match parseVal f t3 with
          | none => none
          | some (v, t4) =>
            match t4.dropWhile isWsJ with
            | 44 :: t5 => (parseMembers f t5).map (fun p => ((key, v) :: p.1, p.2))
            | 125 :: t5 => some ([(key, v)], t5)
            | _ => none
        | _ => none
    | _ => none

/-- Parse the items of a JSON array after the opening bracket (nonempty
case), consuming the closing bracket. -/
def parseItems : Nat → PyStr → Option (List PyJson × PyStr)
  | 0, _ => none
  | f + 1, s =>
    match parseVal f s with
    | none => none
    | some (v, t) =>
      match t.dropWhile isWsJ with
      | 44 :: t2 => (parseItems f t2).map (fun p => (v :: p.1, p.2))
      | 93 :: t2 => some ([v], t2)
      | _ => none

end

/-- Models `json.loads`: parse one value and require only whitespace after
it ("Extra data" otherwise). -/
def json_loads (s : PyStr) : Option PyJson :=
  match parseVal (s.length + 1) s with
  | some (v, rest) => if rest.dropWhile isWsJ = [] then some v else none
  | none => none

/- ===== Metadata Extractor: extract_metadata (src/preprocess.py 123-155) =====
   The completion capability (PromptTemplate | llm, chain.invoke) is the
   external collaborator: it is a parameter mapping the rendered prompt to
   either the response text or the message of the exception it raises. -/

/-- The fixed instruction template of `extract_metadata`, split around the
`post` hole. -/
def promptPre : PyStr :=
  pstr "Extract the following information from this LinkedIn post:\n    - line_count: number of lines\n    - language: either \"English\" or \"French\"\n    - tags: array of maximum two relevant tags\n\n    CRITICAL: Return ONLY a valid JSON object. No explanations, no markdown, no additional text.\n\n    Post: "

/-- The template tail after the `post` hole. -/
def promptSuf : PyStr := pstr "\n\n    JSON:"

/-- `max_post_length = 1000` (src/preprocess.py line 126). -/
def max_post_length : Nat := 1000

/-- The truncation of very long posts (lines 127-128). -/
def truncatePost (post : PyStr) : PyStr :=
  if post.length > max_post_length then post.take max_post_length ++ pstr "..." else post

/-- The rendered prompt for a (truncated) post. -/
def renderPrompt (post : PyStr) : PyStr := promptPre ++ post ++ promptSuf

/-- Embeds `extract_metadata`: truncate, render the prompt, invoke the
capability once, strip, run the Response Parser, then `json.loads`.  Fails
(Except.error, carrying the exception message) when the capability raises,
when the parser yields nothing (falsy: none or empty), or when decoding
fails.  The real JSONDecodeError message text varies with the failure; the
model uses a fixed representative ("Expecting value"); no claim depends on
that text. -/
def extract_metadata (complete : PyStr → Except PyStr PyStr) (post : PyStr) :
    Except PyStr PyJson :=
  match complete (renderPrompt (truncatePost post)) with
  | Except.error m => Except.error m
  | Except.ok response =>
    match extract_json_from_text (pyStrip response) with
    | none => Except.error (pstr "No valid JSON found in response")
    | some json_str =>
      if json_str = [] then Except.error (pstr "No valid JSON found in response")
      else
        match json_loads json_str with
        | some v => Except.ok v
        | none => Except.error (pstr "Expecting value")

/- ===== Retry Controller: extract_metadata_with_retry (lines 95-120) ===== -/

/-- The retryable-error classification (lines 105-107), applied to the
lowercased exception message. -/
def retryableError (error_msg : PyStr) : Bool :=
  strIn (pstr "503") error_msg || strIn (pstr "service unavailable") error_msg ||
  strIn (pstr "invalid json output") error_msg || strIn (pstr "expecting value") error_msg ||
  strIn (pstr "context too big") error_msg

/-- The observable trace of one retry run: the returned metadata, the number
of extraction attempts actually made, and the sleep durations (seconds)
performed, in order. -/
structure RetryTrace where
  result : PyJson
  attemptsMade : Nat
  sleeps : List Nat

/-- The `for attempt in range(max_retries)` loop (lines 98-116), with the
single-shot extractor abstracted as the per-attempt behavior `runExtract`
(it may return a value or raise, differently on each attempt).  First
component: the value returned from inside the loop, or none when the loop
breaks (non-retryable error) or exhausts; the other components count the
attempts made and record the sleeps `(2 ** attempt) * 5`, taken only when
the error is retryable and `attempt < max_retries - 1`.  Structural fuel
`r` equals `maxRetries - attempt` at every call. -/
def retryLoop (runExtract : Nat → Except PyStr PyJson) (maxRetries : Nat) :
    Nat → Nat → List Nat → Option PyJson × Nat × List Nat
  | 0, attempt, acc => (none, attempt, acc)
  | r + 1, attempt, acc =>
    match runExtract attempt with
    | Except.ok v => (some v, attempt + 1, acc)
    | Except.error e =>
      if retryableError (pyLower e) then
        if attempt < maxRetries - 1 then
          retryLoop runExtract maxRetries r (attempt + 1) (acc ++ [2 ^ attempt * 5])
        else retryLoop runExtract maxRetries r (attempt + 1) acc
      else (none, attempt + 1, acc)

/-- Embeds `extract_metadata_with_retry` with the default `max_retries = 3`:
on loop exit without a return (exhaustion or non-retryable break), return
`get_fallback_metadata(post)`.  Total by construction: every behavior of the
single-shot extractor yields a value, never an exception. -/
def extract_metadata_with_retry (runExtract : Nat → Except PyStr PyJson) (post : PyStr) :
    RetryTrace :=
  match retryLoop runExtract 3 3 0 [] with
  | (some v, a, s) => RetryTrace.mk v a s
  | (none, a, s) => RetryTrace.mk (get_fallback_metadata post) a s

/- ===== Batch Processor: process_posts (src/preprocess.py 9-41) ===== -/

/-- A Python dict with string keys, as `json.load` produces for each post. -/
abbrev PyDict := List (PyStr × PyJson)

/-- Python `d[k]` / `d.get(k)` lookup. -/
def dictGet (d : PyDict) (k : PyStr) : Option PyJson :=
  (d.find? (fun p => p.1 == k)).map (fun p => p.2)

/-- Python `d[k] = v`: update in place when the key exists (order kept),
append otherwise. -/
def dictSet (d : PyDict) (k : PyStr) (v : PyJson) : PyDict :=
  if (d.find? (fun p => p.1 == k)).isSome then
    d.map (fun p => if p.1 == k then (p.1, v) else p)
  else d ++ [(k, v)]

/-- Python dict merge `\x7b**a, **b\x7d`: the keys of `a` in order with
values overridden by `b`, then the keys of `b` absent from `a`, in `b`'s
order. -/
def dictMerge (a b : PyDict) : PyDict :=
  a.map (fun p => (p.1, (dictGet b p.1).getD p.2)) ++
    b.filter (fun p => (dictGet a p.1).isNone)

/-- Comma-space interleaving for `pyReprInner`. -/
def joinCommaList : List PyStr → PyStr
  | [] => []
  | [x] => x
  | x :: y :: r => x ++ pstr ", " ++ joinCommaList (y :: r)

mutual

/-- Python `repr` of a parsed JSON value (used inside containers by `str`);
nested strings are quoted with 39 (single quote).  Quote escaping inside
nested strings is not modelled (no claim depends on it). -/
def pyReprInner : PyJson → PyStr
  | PyJson.null => pstr "None"
  | PyJson.bool true => pstr "True"
  | PyJson.bool false => pstr "False"
  | PyJson.int n => pstr (toString n)
  | PyJson.str s => 39 :: (s ++ [39])
  | PyJson.arr xs => 91 :: (joinCommaList (pyReprArr xs) ++ [93])
  | PyJson.obj fs => 123 :: (joinCommaList (pyReprObj fs) ++ [125])

/-- The element reprs of a list value. -/
def pyReprArr : List PyJson → List PyStr
  | [] => []
  | x :: xs => pyReprInner x :: pyReprArr xs

/-- The `key: value` reprs of a dict value. -/
def pyReprObj : List (PyStr × PyJson) → List PyStr
  | [] => []
  | (k, v) :: fs => ((39 :: (k ++ [39])) ++ pstr ": " ++ pyReprInner v) :: pyReprObj fs

end

/-- Python `str` of a parsed JSON value: a string is itself, anything else
its repr. -/
def pyStrOf : PyJson → PyStr
  | PyJson.str s => s
  | v => pyReprInner v

/-- `clean_unicode` applied to an arbitrary field value: the
`isinstance(text, str)` guard returns `str(text)` for non-strings. -/
def clean_unicode_val : PyJson → PyStr
  | PyJson.str s => clean_unicode s
  | v => pyStrOf v

/-- The fallback dict built inline in the `except` arm of `process_posts`
(lines 30-34): line count of the recoverable text, hardcoded "English",
empty tags. -/
def exceptFallback (text : PyStr) : PyDict :=
  [(pstr "line_count", PyJson.int (pySplitNl text).length),
   (pstr "language", PyJson.str (pstr "English")),
   (pstr "tags", PyJson.arr [])]

/-- The per-item body of the `process_posts` loop (lines 15-37) on one post
(a mapping); `complete a` is the completion capability as seen by retry
attempt `a`.  The `try` arm runs when the post has a "text" field: the value
is cleaned (non-strings stringified by `clean_unicode`), written back, and
metadata extracted with retry, then merged (metadata overriding).  An
exception lands in the `except` arm, which appends the hardcoded fallback
record instead: either "text" is missing (KeyError before any mutation, so
`post.get("text", "")` is "") or, defensively, the metadata value is not a
dict so that `\x7b**post, **metadata\x7d` raises TypeError (by then "text"
holds the cleaned string). -/
def processOne (complete : Nat → PyStr → Except PyStr PyStr) (post : PyDict) : PyDict :=
  match dictGet post (pstr "text") with
  | none => dictMerge post (exceptFallback (pstr ""))
  | some v =>
    let clean_text := clean_unicode_val v
    let post' := dictSet post (pstr "text") (PyJson.str clean_text)
    match (extract_metadata_with_retry
        (fun a => extract_metadata (complete a) clean_text) clean_text).result with
    | PyJson.obj mf => dictMerge post' mf
    | _ => dictMerge post' (exceptFallback clean_text)

/-- The enumerate-and-append loop of `process_posts`. -/
def processLoop (complete : Nat → Nat → PyStr → Except PyStr PyStr) :
    List PyDict → Nat → List PyDict → List PyDict
  | [], _, acc => acc
  | p :: rest, i, acc => processLoop complete rest (i + 1) (acc ++ [processOne (complete i) p])

/-- Embeds `process_posts` (lines 9-41) on an already loaded collection of
posts, each a mapping; reading the raw file and persisting the output are
the excluded I/O layer.  `complete i a` is the completion capability's
behavior for post `i`, retry attempt `a` (the capability is an external,
possibly nondeterministic service, so its behavior may differ per call). -/
def process_posts (complete : Nat → Nat → PyStr → Except PyStr PyStr)
    (posts : List PyDict) : List PyDict :=
  processLoop complete posts 0 []

/-- The fixed tag category set: the keys of `linkedin_keywords`. -/
def tagNames : List PyStr := linkedin_keywords.map (fun p => p.1)

/-- The Metadata schema of the spec as a decidable check on a produced
record: nonnegative integer `line_count`, `language` either "English" or
"French", `tags` a list of at most two strings drawn from the fixed
category set. -/
def metaSchemaOk (j : PyJson) : Bool :=
  match j with
  | PyJson.obj fs =>
    (match dictGet fs (pstr "line_count") with
     | some (PyJson.int n) => decide (0 ≤ n)
     | _ => false) &&
    (match dictGet fs (pstr "language") with
     | some (PyJson.str l) => l == pstr "English" || l == pstr "French"
     | _ => false) &&
    (match dictGet fs (pstr "tags") with
     | some (PyJson.arr xs) =>
       decide (xs.length ≤ 2) && xs.all (fun x =>
         match x with
         | PyJson.str t => tagNames.any (fun nm => nm == t)
         | _ => false)
     | _ => false)
  | _ => false

/-- The field list of a dict value (the object case; other values have no
fields). -/
def jsonFields : PyJson → PyDict
  | PyJson.obj fs => fs
  | _ => []

/-- The spec's example object text
\x7b"line_count": 3, "language": "English", "tags": ["tech"]\x7d. -/
def exampleObjText : PyStr :=
  pstr "\x7b\"line_count\": 3, \"language\": \"English\", \"tags\": [\"tech\"]\x7d"

/- ===================== Theorems ===================== -/

/-- Claim C8: `clean_unicode` (the Text Sanitizer on strings) is total on
all code-point sequences, including lone surrogates - in this embedding it
is a function into PyStr, never an exception - and it is idempotent:
applying it twice equals applying it once. -/
theorem clean_unicode_idempotent (s : PyStr) :
    clean_unicode (clean_unicode s) = clean_unicode s := by
  unfold clean_unicode
  by_cases h : s.any isSurrogate
  · simp only [h, if_true]
    have hmap : (s.map (fun c => if isSurrogate c then 0xFFFD else c)).any isSurrogate = false := by
      rw [List.any_map, List.any_eq_false]
      intro c _
      by_cases hs : isSurrogate c
      · simp only [Function.comp, hs, if_true]
        decide
      · simp [Function.comp, hs]
    simp [hmap]
  · simp [h]

/-- Claim C6: the fallback language heuristic classifies "French" exactly
when the count of French function words found in the lowercased text
exceeds 3, and "English" otherwise; the two concrete inputs of the spec
classify as stated, and `fallback_language` is exactly the `language` field
of the metadata `get_fallback_metadata` produces. -/
theorem fallback_language_heuristic :
    (∀ s : PyStr,
      (fallback_language s = pstr "French" ↔ french_count s > 3) ∧
      (fallback_language s = pstr "English" ↔ ¬ french_count s > 3) ∧
      dictGet (jsonFields (get_fallback_metadata s)) (pstr "language") =
        some (PyJson.str (fallback_language s))) ∧
    fallback_language (pstr "le la les de du des et est une un ce cette") = pstr "French" ∧
    fallback_language (pstr "the quick brown fox") = pstr "English" := by
  refine ⟨fun s => ⟨?_, ?_, rfl⟩, by decide, by decide⟩
  · unfold fallback_language
    by_cases h : french_count s > 3 <;> simp [h] <;> decide
  · unfold fallback_language
    by_cases h : french_count s > 3 <;> simp [h] <;> decide

/-- Claim C1: the Retry Controller is total for every behavior of the
single-shot extractor (in this embedding it returns a RetryTrace, never an
exception), and whenever every attempt fails - whatever the exception
messages, retryable or not - the returned metadata is exactly the Fallback
Metadata Generator's output for the same post text. -/
theorem retry_exhaustion_returns_fallback (f : Nat → Except PyStr PyJson) (post : PyStr)
    (h : ∀ a, a < 3 → ∃ m, f a = Except.error m) :
    (extract_metadata_with_retry f post).result = get_fallback_metadata post := by
  obtain ⟨m0, h0⟩ := h 0 (by omega)
  obtain ⟨m1, h1⟩ := h 1 (by omega)
  obtain ⟨m2, h2⟩ := h 2 (by omega)
  unfold extract_metadata_with_retry
  show (match retryLoop f 3 (2 + 1) 0 [] with
    | (some v, a, s) => RetryTrace.mk v a s
    | (none, a, s) => RetryTrace.mk (get_fallback_metadata post) a s).result = _
  rw [retryLoop]
  by_cases r0 : retryableError (pyLower m0)
  · simp only [h0, r0, if_true]
    norm_num
    show (match retryLoop f 3 (1 + 1) 1 [1 * 5] with
      | (some v, a, s) => RetryTrace.mk v a s
      | (none, a, s) => RetryTrace.mk (get_fallback_metadata post) a s).result = _
    rw [retryLoop]
    by_cases r1 : retryableError (pyLower m1)
    · simp only [h1, r1, if_true]
      norm_num
      show (match retryLoop f 3 (0 + 1) 2 [1 * 5, 2 * 5] with
        | (some v, a, s) => RetryTrace.mk v a s
        | (none, a, s) => RetryTrace.mk (get_fallback_metadata post) a s).result = _
      rw [retryLoop]
      by_cases r2 : retryableError (pyLower m2)
      · simp [h2, r2, retryLoop]
      · simp [h2, r2]
    · simp [h1, r1]
  · simp [h0, r0]

/-- Witness for C1 at a concrete always-failing extractor. -/
theorem retry_exhaustion_returns_fallback_w :
    (extract_metadata_with_retry (fun _ => Except.error (pstr "boom")) (pstr "hi")).result =
      get_fallback_metadata (pstr "hi") :=
  retry_exhaustion_returns_fallback (fun _ => Except.error (pstr "boom")) (pstr "hi")
    (fun _ _ => ⟨pstr "boom", rfl⟩)

/-- Claim C5: when every attempt fails, the Retry Controller's behavior is
fixed by the retryable classification (a substring match on the lowercased
message against the fixed keyword set, i.e. case-insensitive): all-retryable
errors give 3 attempts with sleeps 5 and 10 seconds (5 * 2^a after attempts
0 and 1, none after the last); a non-retryable first error gives exactly one
attempt and no sleep; both return the fallback metadata. -/
theorem retry_backoff_and_fast_fail (f : Nat → Except PyStr PyJson) (post : PyStr) :
    ((∀ a, a < 3 → ∃ m, f a = Except.error m ∧ retryableError (pyLower m) = true) →
      extract_metadata_with_retry f post =
        RetryTrace.mk (get_fallback_metadata post) 3 [5, 10]) ∧
    ((∃ m, f 0 = Except.error m ∧ retryableError (pyLower m) = false) →
      extract_metadata_with_retry f post =
        RetryTrace.mk (get_fallback_metadata post) 1 []) := by
  constructor
  · intro h
    obtain ⟨m0, h0, r0⟩ := h 0 (by omega)
    obtain ⟨m1, h1, r1⟩ := h 1 (by omega)
    obtain ⟨m2, h2, r2⟩ := h 2 (by omega)
    unfold extract_metadata_with_retry
    show (match retryLoop f 3 (2 + 1) 0 [] with
      | (some v, a, s) => RetryTrace.mk v a s
      | (none, a, s) => RetryTrace.mk (get_fallback_metadata post) a s) = _
    rw [retryLoop]
    simp only [h0, r0, if_true]
    norm_num
    show (match retryLoop f 3 (1 + 1) 1 [1 * 5] with
      | (some v, a, s) => RetryTrace.mk v a s
      | (none, a, s) => RetryTrace.mk (get_fallback_metadata post) a s) = _
    rw [retryLoop]
    simp only [h1, r1, if_true]
    norm_num
    show (match retryLoop f 3 (0 + 1) 2 [1 * 5, 2 * 5] with
      | (some v, a, s) => RetryTrace.mk v a s
      | (none, a, s) => RetryTrace.mk (get_fallback_metadata post) a s) = _
    rw [retryLoop]
    simp [h2, r2, retryLoop]
  · intro h
    obtain ⟨m0, h0, r0⟩ := h
    unfold extract_metadata_with_retry
    show (match retryLoop f 3 (2 + 1) 0 [] with
      | (some v, a, s) => RetryTrace.mk v a s
      | (none, a, s) => RetryTrace.mk (get_fallback_metadata post) a s) = _
    rw [retryLoop]
    simp [h0, r0]

/-- Witness for C5: an all-503 extractor yields 3 attempts with sleeps
[5, 10]; an authentication failure yields 1 attempt and no sleep. -/
theorem retry_backoff_and_fast_fail_w :
    extract_metadata_with_retry
        (fun _ => Except.error (pstr "503 Service Unavailable")) (pstr "hi") =
      RetryTrace.mk (get_fallback_metadata (pstr "hi")) 3 [5, 10] ∧
    extract_metadata_with_retry
        (fun _ => Except.error (pstr "authentication failed")) (pstr "hi") =
      RetryTrace.mk (get_fallback_metadata (pstr "hi")) 1 [] :=
  ⟨(retry_backoff_and_fast_fail
      (fun _ => Except.error (pstr "503 Service Unavailable")) (pstr "hi")).1
      (fun _ _ => ⟨pstr "503 Service Unavailable", rfl, by decide⟩),
   (retry_backoff_and_fast_fail
      (fun _ => Except.error (pstr "authentication failed")) (pstr "hi")).2
      ⟨pstr "authentication failed", rfl, by decide⟩⟩

/-- Helper: a successful `tryBody` result is a brace-delimited string. -/
theorem tryBody_shape (s g : PyStr) (h : tryBody s = some g) :
    ∃ cs, g = 123 :: (cs ++ [125]) := by
  unfold tryBody at h
  split at h
  · split at h
    · simp only [Option.map_eq_some'] at h
      obtain ⟨cs, _, hg⟩ := h
      exact ⟨cs, hg.symm⟩
    · cases h
  · cases h

/-- Helper: a successful `tryFence` result is a brace-delimited string. -/
theorem tryFence_shape (s g : PyStr) (h : tryFence s = some g) :
    ∃ cs, g = 123 :: (cs ++ [125]) := by
  unfold tryFence at h
  split at h
  · next g' heq =>
    split at heq
    · cases h
      exact tryBody_shape _ _ heq
    · cases heq
  · exact tryBody_shape _ _ h

/-- Helper: a successful `method1` group is a brace-delimited string. -/
theorem method1_shape (s g : PyStr) (h : method1 s = some g) :
    ∃ cs, g = 123 :: (cs ++ [125]) := by
  induction s with
  | nil => cases h
  | cons c t ih =>
    unfold method1 at h
    split at h
    · split at h
      · next g' heq =>
        cases h
        exact tryFence_shape _ _ heq
      · exact ih h
    · exact ih h

/-- Helper: a successful `m2scan` consumption ends with the closing brace. -/
theorem m2scan_shape (s : PyStr) : ∀ inner a r, m2scan s inner = some (a, r) →
    ∃ x, a = x ++ [125] := by
  induction s with
  | nil => intro inner a r h; cases h
  | cons c t ih =>
    intro inner a r h
    unfold m2scan at h
    split at h
    · split at h
      · cases h
      · simp only [Option.map_eq_some'] at h
        obtain ⟨⟨a', r'⟩, hrec, hpair⟩ := h
        obtain ⟨x, hx⟩ := ih true a' r' hrec
        cases hpair
        exact ⟨c :: x, by simp [hx]⟩
    · split at h
      · next hc =>
        split at h
        · simp only [Option.map_eq_some'] at h
          obtain ⟨⟨a', r'⟩, hrec, hpair⟩ := h
          obtain ⟨x, hx⟩ := ih false a' r' hrec
          cases hpair
          exact ⟨c :: x, by simp [hx]⟩
        · cases h
          exact ⟨[], by simp [eq_of_beq hc]⟩
      · simp only [Option.map_eq_some'] at h
        obtain ⟨⟨a', r'⟩, hrec, hpair⟩ := h
        obtain ⟨x, hx⟩ := ih inner a' r' hrec
        cases hpair
        exact ⟨c :: x, by simp [hx]⟩

/-- Helper: every match of method 2's scan is a brace-delimited string. -/
theorem findAll2Fuel_shape (f : Nat) : ∀ s m, m ∈ findAll2Fuel f s →
    ∃ x, m = 123 :: (x ++ [125]) := by
  induction f with
  | zero =>
    intro s m h
    simp [findAll2Fuel] at h
  | succ f ih =>
    intro s m h
    cases s with
    | nil => cases h
    | cons c t =>
      unfold findAll2Fuel at h
      split at h
      · next hcc =>
        split at h
        · next a r heq =>
          rcases List.mem_cons.mp h with h1 | h2
          · obtain ⟨x, hx⟩ := m2scan_shape t false a r heq
            exact ⟨x, by simp [h1, hx, eq_of_beq hcc]⟩
          · exact ih r m h2
        · exact ih t m h
      · exact ih t m h

/-- Helper: `max(key=len)` returns an element of its input. -/
theorem foldl_max_mem (xs : List PyStr) : ∀ b,
    xs.foldl (fun b a => if a.length > b.length then a else b) b ∈ b :: xs := by
  induction xs with
  | nil => intro b; simp
  | cons x xs ih =>
    intro b
    simp only [List.foldl_cons]
    rcases List.mem_cons.mp (ih (if x.length > b.length then x else b)) with h1 | h2
    · rw [h1]
      split
      · simp
      · simp
    · simp [List.mem_cons.mpr (Or.inr h2)]

/-- Helper: `maxByLen` returns an element of its input. -/
theorem maxByLen_mem (l : List PyStr) (m : PyStr) (h : maxByLen l = some m) : m ∈ l := by
  cases l with
  | nil => cases h
  | cons x xs =>
    unfold maxByLen at h
    cases h
    exact foldl_max_mem xs x

/-- Helper: a successful `method2` match is a brace-delimited string. -/
theorem method2_shape (s m : PyStr) (h : method2 s = some m) :
    ∃ x, m = 123 :: (x ++ [125]) := by
  unfold method2 at h
  exact findAll2Fuel_shape _ _ _ (maxByLen_mem _ _ h)

/-- Helper: `strip` leaves a string with non-whitespace first and last
characters unchanged. -/
theorem pyStrip_eq_self (l : PyStr)
    (h1 : ∀ a, l.head? = some a → isWsRe a = false)
    (h2 : ∀ b, l.getLast? = some b → isWsRe b = false) : pyStrip l = l := by
  unfold pyStrip
  cases l with
  | nil => simp
  | cons a t =>
    have ha := h1 a rfl
    rw [List.dropWhile_cons, ha]
    simp only [Bool.false_eq_true, if_false]
    cases hrev : (a :: t).reverse with
    | nil => simp at hrev
    | cons b u =>
      have hb : (a :: t).getLast? = some b := by
        rw [← List.head?_reverse, hrev]
        rfl
      have hbw := h2 b hb
      rw [List.dropWhile_cons, hbw]
      simp only [Bool.false_eq_true, if_false]
      rw [← hrev, List.reverse_reverse]

/-- Helper: stripping a brace-delimited string is the identity. -/
theorem pyStrip_brace (cs : PyStr) : pyStrip (123 :: (cs ++ [125])) = 123 :: (cs ++ [125]) := by
  apply pyStrip_eq_self
  · intro a ha
    cases ha
    decide
  · intro b hb
    rw [show (123 :: (cs ++ [125])) = (123 :: cs) ++ [125] by simp,
      List.getLast?_concat] at hb
    cases hb
    decide

/-- Helper: the last element of a brace-delimited string. -/
theorem braceShape_last (cs : PyStr) : (123 :: (cs ++ [125])).getLast? = some 125 := by
  rw [show (123 :: (cs ++ [125])) = (123 :: cs) ++ [125] by simp, List.getLast?_concat]

/-- Helper: `pyFindIdx` finds an index holding the sought character. -/
theorem pyFindIdx_spec (c : Nat) (s : PyStr) : ∀ i, pyFindIdx c s = some i →
    s[i]? = some c := by
  induction s with
  | nil => intro i h; cases h
  | cons a t ih =>
    intro i h
    unfold pyFindIdx at h
    split at h
    · next hc =>
      cases h
      simp [eq_of_beq hc]
    · simp only [Option.map_eq_some'] at h
      obtain ⟨j, hj, hi⟩ := h
      cases hi
      simpa using ih j hj

/-- Helper: `pyRfindIdx` finds an index holding the sought character. -/
theorem pyRfindIdx_spec (c : Nat) (s : PyStr) : ∀ i, pyRfindIdx c s = some i →
    s[i]? = some c := by
  induction s with
  | nil => intro i h; cases h
  | cons a t ih =>
    intro i h
    unfold pyRfindIdx at h
    split at h
    · next j hj =>
      cases h
      simpa using ih j hj
    · split at h
      · next hc =>
        cases h
        simp [eq_of_beq hc]
      · cases h

/-- Helper: every successful result of the Response Parser is
brace-delimited (first code point 123, last 125). -/
theorem extractJson_delimited (s r : PyStr) (h : extract_json_from_text s = some r) :
    r.head? = some 123 ∧ r.getLast? = some 125 := by
  unfold extract_json_from_text at h
  split at h
  · next g hg =>
    obtain ⟨cs, hcs⟩ := method1_shape s g hg
    cases h
    rw [hcs, pyStrip_brace]
    exact ⟨rfl, braceShape_last cs⟩
  · split at h
    · next m hm =>
      obtain ⟨cs, hcs⟩ := method2_shape s m hm
      cases h
      rw [hcs, pyStrip_brace]
      exact ⟨rfl, braceShape_last cs⟩
    · unfold method3 at h
      split at h
      · next st en hst hen =>
        split at h
        · next hlt =>
          cases h
          have hs123 := pyFindIdx_spec 123 s st hst
          have hs125 := pyRfindIdx_spec 125 s en hen
          have henlen : en < s.length := by
            by_contra hc
            rw [List.getElem?_eq_none (by omega)] at hs125
            cases hs125
          have hhead : ((s.take (en + 1)).drop st).head? = some 123 := by
            rw [List.head?_drop, List.getElem?_take]
            simp only [show st < en + 1 by omega, if_true]
            exact hs123
          have hlast : ((s.take (en + 1)).drop st).getLast? = some 125 := by
            rw [List.getLast?_drop]
            have hlen : (s.take (en + 1)).length = min (en + 1) s.length := List.length_take _ _
            have : ¬ (s.take (en + 1)).length ≤ st := by
              rw [hlen]
              omega
            simp only [this, if_false]
            rw [List.getLast?_take]
            simp only [Nat.add_sub_cancel, show ¬ en + 1 = 0 by omega, if_false]
            rw [hs125]
            rfl
          rw [pyStrip_eq_self _ (fun a ha => by rw [hhead] at ha; cases ha; decide)
            (fun b hb => by rw [hlast] at hb; cases hb; decide)]
          exact ⟨hhead, hlast⟩
        · cases h
      · cases h

/-- Claim C10: for every input string, `extract_json_from_text` returns
either none or a string whose first character is "\x7b" and whose last
character is "\x7d". -/
theorem extract_json_brace_delimited (s r : PyStr) (h : extract_json_from_text s = some r) :
    r.head? = some 123 ∧ r.getLast? = some 125 :=
  extractJson_delimited s r h

/-- Witness for C10 at a concrete input handled by method 2. -/
theorem extract_json_brace_delimited_w :
    extract_json_from_text (pstr "x \x7ba\x7d y") = some (pstr "\x7ba\x7d") ∧
    (pstr "\x7ba\x7d").head? = some 123 ∧ (pstr "\x7ba\x7d").getLast? = some 125 :=
  ⟨rfl, extract_json_brace_delimited (pstr "x \x7ba\x7d y") (pstr "\x7ba\x7d") rfl⟩

/-- Helper: a fence match cannot begin inside a backtick-free prefix, so
method 1 scans past it. -/
theorem method1_skip (p : PyStr) (r : PyStr) (hp : ∀ c ∈ p, ¬ c = 96) :
    method1 (p ++ r) = method1 r := by
  induction p with
  | nil => rfl
  | cons c p' ih =>
    have hc : ¬ c = 96 := hp c (List.mem_cons_self c p')
    have hstart : startsWithP (pstr "```") (c :: (p' ++ r)) = false := by
      show (96 == c && startsWithP [96, 96] (p' ++ r)) = false
      have h96 : (96 == c) = false := beq_eq_false_iff_ne.mpr (fun h => hc h.symm)
      simp [h96]
    show method1 (c :: (p' ++ r)) = method1 r
    conv_lhs => rw [method1]
    rw [hstart]
    simp only [Bool.false_eq_true, if_false]
    exact ih (fun d hd => hp d (List.mem_cons_of_mem c hd))

/-- Helper: the lazy scan stops at the first closing brace whose
continuation carries a fence after optional whitespace. -/
theorem lazyClose_through (u v : PyStr) (hu : ∀ c ∈ u, ¬ c = 125)
    (hv : fenceAfterWs v = true) : lazyClose (u ++ 125 :: v) = some u := by
  induction u with
  | nil =>
    unfold lazyClose
    simp [hv]
  | cons c u' ih =>
    have hc : ¬ c = 125 := hu c (List.mem_cons_self c u')
    show lazyClose (c :: (u' ++ 125 :: v)) = some (c :: u')
    unfold lazyClose
    have hcond : (c == 125 && fenceAfterWs (u' ++ 125 :: v)) = false := by
      simp [beq_iff_eq, hc]
    rw [hcond]
    simp only [Bool.false_eq_true, if_false]
    rw [ih (fun d hd => hu d (List.mem_cons_of_mem c hd))]

/-- Helper: a newline followed by a closing fence satisfies the
whitespace-then-fence continuation, whatever follows. -/
theorem fenceAfterWs_nl (suf : PyStr) : fenceAfterWs (10 :: 96 :: 96 :: 96 :: suf) = true := by
  unfold fenceAfterWs
  rw [List.dropWhile_cons]
  simp only [show isWsRe 10 = true from rfl, if_true]
  rw [List.dropWhile_cons]
  simp only [show isWsRe 96 = false from rfl, Bool.false_eq_true, if_false]
  show (96 == 96 && (96 == 96 && (96 == 96 && startsWithP [] suf))) = true
  simp [startsWithP]

/-- Claim C7 (amended): `extract_json_from_text` applies its strategies in
order - a fenced-block match is returned (stripped) when one exists, the
longest standalone match only when method 1 fails, and the first-to-last
brace slice only when both fail - and for every text of the form
`p ++ "(three backticks)json\n" ++ exampleObjText ++ "\n(three backticks)" ++ suf`
whose prefix `p` contains no backtick, it returns exactly the example
object's text.  (An arbitrary text merely containing such a fenced block
can yield a different, earlier match - see the counterexample.) -/
theorem extract_json_strategy_order_and_fenced :
    (∀ s g, method1 s = some g → extract_json_from_text s = some (pyStrip g)) ∧
    (∀ s m, method1 s = none → method2 s = some m →
      extract_json_from_text s = some (pyStrip m)) ∧
    (∀ s, method1 s = none → method2 s = none →
      extract_json_from_text s = method3 s) ∧
    (∀ p suf, (∀ c ∈ p, ¬ c = 96) →
      extract_json_from_text
          (p ++ pstr "```json\n" ++ exampleObjText ++ pstr "\n```" ++ suf) =
        some exampleObjText) := by
  refine ⟨?_, ?_, ?_, ?_⟩
  · intro s g h
    unfold extract_json_from_text
    rw [h]
  · intro s m h1 h2
    unfold extract_json_from_text
    rw [h1, h2]
  · intro s h1 h2
    unfold extract_json_from_text
    rw [h1, h2]
  · intro p suf hp
    obtain ⟨mid, hmid, hnot⟩ : ∃ mid, exampleObjText = 123 :: (mid ++ [125]) ∧
        ∀ c ∈ mid, ¬ c = 125 :=
      ⟨(exampleObjText.drop 1).dropLast, by decide, by decide⟩
    have hassoc : p ++ pstr "```json\n" ++ exampleObjText ++ pstr "\n```" ++ suf =
        p ++ (pstr "```json\n" ++ (exampleObjText ++ (pstr "\n```" ++ suf))) := by
      simp [List.append_assoc]
    have hbody : tryBody (10 :: (exampleObjText ++ (pstr "\n```" ++ suf))) =
        some (123 :: (mid ++ [125])) := by
      rw [hmid]
      show tryBody (10 :: 123 :: ((mid ++ [125]) ++ (10 :: 96 :: 96 :: 96 :: suf))) = _
      unfold tryBody
      rw [List.dropWhile_cons]
      simp only [show isWsRe 10 = true from rfl, if_true]
      rw [List.dropWhile_cons]
      simp only [show isWsRe 123 = false from rfl, Bool.false_eq_true, if_false]
      simp only [show (123 == 123) = true from rfl, if_true]
      rw [List.append_assoc, List.singleton_append]
      rw [lazyClose_through mid _ hnot (fenceAfterWs_nl suf)]
      rfl
    have hfence : tryFence (106 :: 115 :: 111 :: 110 :: 10 ::
        (exampleObjText ++ (pstr "\n```" ++ suf))) = some (123 :: (mid ++ [125])) := by
      unfold tryFence
      have hci : startsWithCI (pstr "json")
          (106 :: 115 :: 111 :: 110 :: 10 :: (exampleObjText ++ (pstr "\n```" ++ suf))) = true := rfl
      rw [hci]
      simp only [if_true, List.drop_succ_cons, List.drop_zero]
      rw [hbody]
    have hm1 : method1 (pstr "```json\n" ++ (exampleObjText ++ (pstr "\n```" ++ suf))) =
        some (123 :: (mid ++ [125])) := by
      show method1 (96 :: 96 :: 96 :: 106 :: 115 :: 111 :: 110 :: 10 ::
        (exampleObjText ++ (pstr "\n```" ++ suf))) = _
      unfold method1
      have hstart : startsWithP (pstr "```") (96 :: 96 :: 96 :: 106 :: 115 :: 111 :: 110 :: 10 ::
          (exampleObjText ++ (pstr "\n```" ++ suf))) = true := rfl
      rw [hstart]
      simp only [if_true, List.drop_succ_cons, List.drop_zero]
      rw [hfence]
    rw [hassoc]
    unfold extract_json_from_text
    rw [method1_skip p _ hp, hm1]
    show some (pyStrip (123 :: (mid ++ [125]))) = some exampleObjText
    rw [pyStrip_brace, ← hmid]

/-- Witness for C7 (amended) at a concrete prose prefix and suffix. -/
theorem extract_json_strategy_order_and_fenced_w :
    extract_json_from_text
        (pstr "Here is the result: " ++ pstr "```json\n" ++ exampleObjText ++
          pstr "\n```" ++ pstr " Done.") =
      some exampleObjText :=
  extract_json_strategy_order_and_fenced.2.2.2
    (pstr "Here is the result: ") (pstr " Done.") (by decide)

/-- Counterexample for C7 as stated: this text contains a fenced code block
wrapping the example object (the block is its entire suffix), yet the parser
returns the earlier fence match `\x7b"a": 1\x7d`, not the example object's
text. -/
theorem extract_json_fenced_first_cex :
    extract_json_from_text
        (pstr "``` \x7b\"a\": 1\x7d " ++ (pstr "```json\n" ++ exampleObjText ++ pstr "\n```")) =
      some (pstr "\x7b\"a\": 1\x7d") ∧
    some (pstr "\x7b\"a\": 1\x7d") ≠ some exampleObjText :=
  ⟨rfl, by decide⟩

/-- Helper: the Response Parser never returns the empty string, so the
`if not json_str` falsy check in `extract_metadata` coincides with the
none check. -/
theorem extractJson_ne_nil (s r : PyStr) (h : extract_json_from_text s = some r) :
    ¬ r = [] := by
  intro hnil
  obtain ⟨hh, _⟩ := extractJson_delimited s r h
  rw [hnil] at hh
  cases hh

/-- Claim C2 (amended): `extract_metadata` fails exactly when the completion
capability errors, when the Response Parser returns none, or when the
extracted string fails strict JSON decoding - with no schema validation: a
non-failing run returns whatever JSON value was decoded, which need not
conform to the Metadata schema (see the counterexample). -/
theorem extract_metadata_error_characterization
    (complete : PyStr → Except PyStr PyStr) (post : PyStr) :
    ((∃ m, extract_metadata complete post = Except.error m) ↔
      ((∃ m, complete (renderPrompt (truncatePost post)) = Except.error m) ∨
       (∃ t, complete (renderPrompt (truncatePost post)) = Except.ok t ∧
         extract_json_from_text (pyStrip t) = none) ∨
       (∃ t js, complete (renderPrompt (truncatePost post)) = Except.ok t ∧
         extract_json_from_text (pyStrip t) = some js ∧ json_loads js = none))) ∧
    (∀ v, extract_metadata complete post = Except.ok v →
      ∃ t js, complete (renderPrompt (truncatePost post)) = Except.ok t ∧
        extract_json_from_text (pyStrip t) = some js ∧ json_loads js = some v) := by
  cases hcall : complete (renderPrompt (truncatePost post)) with
  | error m =>
    have he : extract_metadata complete post = Except.error m := by
      simp only [extract_metadata, hcall]
    refine ⟨⟨fun _ => Or.inl ⟨m, rfl⟩, fun _ => ⟨m, he⟩⟩, ?_⟩
    intro v hv
    rw [he] at hv
    cases hv
  | ok t =>
    cases hp : extract_json_from_text (pyStrip t) with
    | none =>
      have he : extract_metadata complete post =
          Except.error (pstr "No valid JSON found in response") := by
        simp only [extract_metadata, hcall, hp]
      refine ⟨⟨fun _ => Or.inr (Or.inl ⟨t, rfl, hp⟩), fun _ => ⟨_, he⟩⟩, ?_⟩
      intro v hv
      rw [he] at hv
      cases hv
    | some js =>
      have hne : ¬ js = [] := extractJson_ne_nil _ _ hp
      cases hload : json_loads js with
      | none =>
        have he : extract_metadata complete post = Except.error (pstr "Expecting value") := by
          simp only [extract_metadata, hcall, hp]
          rw [if_neg hne, hload]
        refine ⟨⟨fun _ => Or.inr (Or.inr ⟨t, js, rfl, hp, hload⟩), fun _ => ⟨_, he⟩⟩, ?_⟩
        intro v hv
        rw [he] at hv
        cases hv
      | some v =>
        have he : extract_metadata complete post = Except.ok v := by
          simp only [extract_metadata, hcall, hp]
          rw [if_neg hne, hload]
        constructor
        · constructor
          · intro hm
            obtain ⟨m, hm⟩ := hm
            rw [he] at hm
            cases hm
          · intro hdisj
            exfalso
            rcases hdisj with ⟨m, hm⟩ | ⟨t2, ht2, hp2⟩ | ⟨t2, js2, ht2, hp2, hl2⟩
            · cases hm
            · injection ht2 with hteq
              subst hteq
              rw [hp] at hp2
              cases hp2
            · injection ht2 with hteq
              subst hteq
              rw [hp] at hp2
              injection hp2 with hjs
              subst hjs
              rw [hload] at hl2
              cases hl2
        · intro v2 hv2
          rw [he] at hv2
          injection hv2 with hveq
          subst hveq
          exact ⟨t, js, rfl, hp, hload⟩

/-- Counterexample for C2 as stated: a completion behavior on which
`extract_metadata` succeeds although the decoded value does not conform to
the Metadata schema - the source decodes with `json.loads` and never
validates the schema, so success does not imply schema conformance. -/
theorem extract_metadata_no_schema_validation_cex :
    extract_metadata (fun _ => Except.ok (pstr "\x7b\"line_count\": -2\x7d")) (pstr "hello") =
      Except.ok (PyJson.obj [(pstr "line_count", PyJson.int (-2))]) ∧
    metaSchemaOk (PyJson.obj [(pstr "line_count", PyJson.int (-2))]) = false :=
  ⟨rfl, rfl⟩

/-- Helper: starting from at most one collected tag, the tag loop never
exceeds two tags. -/
theorem collectTags_length (low : PyStr) : ∀ table acc, acc.length ≤ 1 →
    (collectTags low table acc).length ≤ 2 := by
  intro table
  induction table with
  | nil =>
    intro acc h
    exact le_trans h (by omega)
  | cons entry rest ih =>
    intro acc h
    obtain ⟨tag, kws⟩ := entry
    show (if kws.any (fun k => strIn k low) then
        if 2 ≤ (acc ++ [tag]).length then acc ++ [tag] else collectTags low rest (acc ++ [tag])
      else collectTags low rest acc).length ≤ 2
    split
    · split
      · simp only [List.length_append, List.length_cons, List.length_nil]
        omega
      · next h2 =>
        apply ih
        simp only [List.length_append, List.length_cons, List.length_nil] at h2 ⊢
        omega
    · exact ih acc h

/-- Helper: every collected tag comes from the accumulator or from the
table's keys. -/
theorem collectTags_subset (low : PyStr) : ∀ table acc t, t ∈ collectTags low table acc →
    t ∈ acc ∨ t ∈ table.map (fun p => p.1) := by
  intro table
  induction table with
  | nil =>
    intro acc t h
    exact Or.inl h
  | cons entry rest ih =>
    intro acc t h
    obtain ⟨tag, kws⟩ := entry
    rw [show collectTags low ((tag, kws) :: rest) acc =
      (if kws.any (fun k => strIn k low) then
        if 2 ≤ (acc ++ [tag]).length then acc ++ [tag] else collectTags low rest (acc ++ [tag])
      else collectTags low rest acc) from rfl] at h
    split at h
    · split at h
      · rcases List.mem_append.mp h with h1 | h1
        · exact Or.inl h1
        · right
          simp only [List.mem_singleton] at h1
          simp [h1]
      · rcases ih _ t h with h1 | h1
        · rcases List.mem_append.mp h1 with h2 | h2
          · exact Or.inl h2
          · right
            simp only [List.mem_singleton] at h2
            simp [h2]
        · right
          simp [h1]
    · rcases ih acc t h with h1 | h1
      · exact Or.inl h1
      · right
        simp [h1]

/-- Helper: the schema check succeeds on any record with a nonnegative
count, a language from the two-element set, and at most two tags drawn from
the category set. -/
theorem metaSchemaOk_mk (n : Int) (lang : PyStr) (tags : List PyStr)
    (hn : 0 ≤ n)
    (hl : lang = pstr "English" ∨ lang = pstr "French")
    (hlen : tags.length ≤ 2)
    (htags : ∀ t ∈ tags, t ∈ tagNames) :
    metaSchemaOk (PyJson.obj
      [(pstr "line_count", PyJson.int n),
       (pstr "language", PyJson.str lang),
       (pstr "tags", PyJson.arr (tags.map PyJson.str))]) = true := by
  show ((decide (0 ≤ n) &&
      (lang == pstr "English" || lang == pstr "French")) &&
     (decide ((tags.map PyJson.str).length ≤ 2) &&
      (tags.map PyJson.str).all (fun x =>
        match x with
        | PyJson.str t => tagNames.any (fun nm => nm == t)
        | _ => false))) = true
  rw [Bool.and_eq_true, Bool.and_eq_true, Bool.and_eq_true]
  refine ⟨⟨decide_eq_true hn, ?_⟩, decide_eq_true (by simpa using hlen), ?_⟩
  · rcases hl with h | h
    · simp [h]
    · simp [h]
  · rw [List.all_eq_true]
    intro x hx
    obtain ⟨t, ht, rfl⟩ := List.mem_map.mp hx
    rw [List.any_eq_true]
    exact ⟨t, htags t ht, beq_self_eq_true t⟩

/-- Claim C3 (amended): every Metadata record the fallback path produces
satisfies the schema invariant - `line_count >= 0`, `language` in
\x7bEnglish, French\x7d, at most two tags, all drawn from the fixed category
set.  The model path performs no schema validation (see the counterexample),
so the invariant is guaranteed only for fallback-produced records. -/
theorem fallback_metadata_schema_ok (post : PyStr) :
    metaSchemaOk (get_fallback_metadata post) = true := by
  unfold get_fallback_metadata
  apply metaSchemaOk_mk
  · exact Int.natCast_nonneg _
  · unfold fallback_language
    split
    · right
      rfl
    · left
      rfl
  · exact collectTags_length (pyLower post) linkedin_keywords [] (by simp)
  · intro t ht
    rcases collectTags_subset (pyLower post) linkedin_keywords [] t ht with h | h
    · cases h
    · exact h

/-- Counterexample for C3 as stated: a run of the model path (the system's
metadata producer) whose produced record has a language outside
\x7bEnglish, French\x7d; the code returns `json.loads` output unvalidated. -/
theorem produced_metadata_schema_cex :
    extract_metadata
        (fun _ => Except.ok
          (pstr "\x7b\"line_count\": 1, \"language\": \"German\", \"tags\": []\x7d"))
        (pstr "post") =
      Except.ok (PyJson.obj
        [(pstr "line_count", PyJson.int 1),
         (pstr "language", PyJson.str (pstr "German")),
         (pstr "tags", PyJson.arr [])]) ∧
    metaSchemaOk (PyJson.obj
        [(pstr "line_count", PyJson.int 1),
         (pstr "language", PyJson.str (pstr "German")),
         (pstr "tags", PyJson.arr [])]) = false :=
  ⟨rfl, rfl⟩

/-- Helper: the append loop distributes over its accumulator. -/
theorem processLoop_acc (complete : Nat → Nat → PyStr → Except PyStr PyStr) :
    ∀ posts i acc, processLoop complete posts i acc =
      acc ++ processLoop complete posts i [] := by
  intro posts
  induction posts with
  | nil =>
    intro i acc
    simp [processLoop]
  | cons p rest ih =>
    intro i acc
    show processLoop complete rest (i + 1) (acc ++ [processOne (complete i) p]) =
      acc ++ processLoop complete rest (i + 1) ([] ++ [processOne (complete i) p])
    rw [ih (i + 1) (acc ++ [processOne (complete i) p]),
      ih (i + 1) ([] ++ [processOne (complete i) p])]
    simp

/-- Helper: each slot of the loop's output is the per-item body applied to
the same slot of the input, with the matching enumerate index. -/
theorem processLoop_get (complete : Nat → Nat → PyStr → Except PyStr PyStr) :
    ∀ posts i k, (processLoop complete posts i []).get? k =
      (posts.get? k).map (fun p => processOne (complete (i + k)) p) := by
  intro posts
  induction posts with
  | nil =>
    intro i k
    simp [processLoop]
  | cons p rest ih =>
    intro i k
    show (processLoop complete rest (i + 1) ([] ++ [processOne (complete i) p])).get? k = _
    rw [processLoop_acc]
    cases k with
    | zero => simp
    | succ k' =>
      simp only [List.nil_append, List.singleton_append, List.get?_cons_succ, ih (i + 1) k']
      rw [show i + 1 + k' = i + (k' + 1) by omega]

/-- Claim C4: for every completion behavior and every input collection of
posts (each a mapping), `process_posts` returns exactly one enriched record
per input record, in the same order: the output has the same length, and
slot i of the output is the per-item procedure (`processOne`, which
substitutes a fallback record on a per-item failure rather than omitting or
aborting) applied to slot i of the input. -/
theorem process_posts_length_and_order
    (complete : Nat → Nat → PyStr → Except PyStr PyStr) (posts : List PyDict) :
    (process_posts complete posts).length = posts.length ∧
    ∀ i, (process_posts complete posts).get? i =
      (posts.get? i).map (fun p => processOne (complete i) p) := by
  constructor
  · have hlen : ∀ i, (process_posts complete posts).get? i =
        (posts.get? i).map (fun p => processOne (complete i) p) := by
      intro i
      have := processLoop_get complete posts 0 i
      simpa [process_posts] using this
    have h1 : ¬ posts.length < (process_posts complete posts).length := by
      intro hlt
      have h2 := hlen posts.length
      rw [List.get?_eq_none.mpr (le_refl posts.length)] at h2
      rw [List.get?_eq_get hlt] at h2
      cases h2
    have h3 : ¬ (process_posts complete posts).length < posts.length := by
      intro hlt
      have h2 := hlen (process_posts complete posts).length
      rw [List.get?_eq_none.mpr (le_refl (process_posts complete posts).length)] at h2
      rw [List.get?_eq_get hlt] at h2
      cases h2
    omega
  · intro i
    have := processLoop_get complete posts 0 i
    simpa [process_posts] using this

/-- Helper: lookup in an appended dict takes the left binding first. -/
theorem dictGet_append (d1 d2 : PyDict) (k : PyStr) :
    dictGet (d1 ++ d2) k = (dictGet d1 k).or (dictGet d2 k) := by
  unfold dictGet
  rw [List.find?_append]
  cases List.find? (fun p => p.1 == k) d1
  · simp
  · simp

/-- Helper: lookup in a key-preserving value rewrite of a dict. -/
theorem dictGet_map_pair (a : PyDict) (f : PyStr × PyJson → PyJson) (k : PyStr) :
    dictGet (a.map (fun p => (p.1, f p))) k =
      (List.find? (fun p => p.1 == k) a).map f := by
  induction a with
  | nil => rfl
  | cons q a' ih =>
    show (List.find? (fun (p : PyStr × PyJson) => p.1 == k)
        ((q.1, f q) :: a'.map (fun p => (p.1, f p)))).map
        (fun (p : PyStr × PyJson) => p.2) =
      (List.find? (fun (p : PyStr × PyJson) => p.1 == k) (q :: a')).map f
    rw [List.find?_cons, List.find?_cons]
    show ((match (q.1 == k) with
        | true => some ((q.1, f q) : PyStr × PyJson)
        | false => List.find? (fun (p : PyStr × PyJson) => p.1 == k)
            (a'.map (fun (p : PyStr × PyJson) => (p.1, f p))))).map
        (fun (p : PyStr × PyJson) => p.2) =
      ((match (q.1 == k) with
        | true => some q
        | false => List.find? (fun (p : PyStr × PyJson) => p.1 == k) a')).map f
    cases hq : (q.1 == k)
    · exact ih
    · rfl

/-- Helper: filtering a dict by a predicate true on every binding of key `k`
does not change the lookup of `k`. -/
theorem dictGet_filter_key (b : PyDict) (k : PyStr) (g : PyStr × PyJson → Bool)
    (hg : ∀ p : PyStr × PyJson, p.1 = k → g p = true) :
    dictGet (b.filter g) k = dictGet b k := by
  induction b with
  | nil => rfl
  | cons q b' ih =>
    rw [List.filter_cons]
    by_cases hgq : g q = true
    · rw [if_pos hgq]
      show (List.find? (fun (p : PyStr × PyJson) => p.1 == k) (q :: b'.filter g)).map
          (fun (p : PyStr × PyJson) => p.2) =
        (List.find? (fun (p : PyStr × PyJson) => p.1 == k) (q :: b')).map
          (fun (p : PyStr × PyJson) => p.2)
      rw [List.find?_cons, List.find?_cons]
      show ((match (q.1 == k) with
          | true => some q
          | false => List.find? (fun (p : PyStr × PyJson) => p.1 == k) (b'.filter g))).map
          (fun (p : PyStr × PyJson) => p.2) =
        ((match (q.1 == k) with
          | true => some q
          | false => List.find? (fun (p : PyStr × PyJson) => p.1 == k) b')).map
          (fun (p : PyStr × PyJson) => p.2)
      cases hq : (q.1 == k)
      · exact ih
      · rfl
    · have hq : (q.1 == k) = false := by
        cases hqq : (q.1 == k)
        · rfl
        · exact absurd (hg q (eq_of_beq hqq)) hgq
      rw [if_neg (by simp [hgq])]
      show dictGet (b'.filter g) k =
        ((match (q.1 == k) with
          | true => some q
          | false => List.find? (fun (p : PyStr × PyJson) => p.1 == k) b')).map
          (fun (p : PyStr × PyJson) => p.2)
      rw [hq]
      exact ih

/-- Helper: lookup in a Python dict merge: the right (metadata) dict wins on
collisions, the left (post) dict answers otherwise. -/
theorem dictGet_dictMerge (a b : PyDict) (k : PyStr) :
    dictGet (dictMerge a b) k =
      match dictGet b k with
      | some v => some v
      | none => dictGet a k := by
  rw [show dictMerge a b =
    a.map (fun p => (p.1, (dictGet b p.1).getD p.2)) ++
      b.filter (fun p => (dictGet a p.1).isNone) from rfl]
  rw [dictGet_append, dictGet_map_pair]
  cases hA : List.find? (fun p => p.1 == k) a with
  | none =>
    have hA2 : dictGet a k = none := by
      unfold dictGet
      rw [hA]
      rfl
    simp only [Option.map_none', Option.none_or]
    rw [dictGet_filter_key b k _ (fun p hp => by
      show (dictGet a p.1).isNone = true
      rw [hp, hA2]
      rfl)]
    cases hB : dictGet b k
    · rw [hA2]
    · rfl
  | some q =>
    have hqk : q.1 = k := eq_of_beq (by simpa using List.find?_some hA)
    have hA2 : dictGet a k = some q.2 := by
      unfold dictGet
      rw [hA]
      rfl
    simp only [Option.map_some']
    rw [show ∀ (x : PyJson) (o : Option PyJson), (some x).or o = some x from fun _ _ => rfl]
    rw [hqk]
    cases hB : dictGet b k
    · simp [hA2]
    · rfl

/-- Helper: a JSON value parsed from a string beginning with "\x7b" is an
object. -/
theorem parseVal_brace_obj (f : Nat) (t : PyStr) (vr : PyJson × PyStr)
    (hv : parseVal (f + 1) (123 :: t) = some vr) : ∃ fs, vr.1 = PyJson.obj fs := by
  have hv2 : (match t.dropWhile isWsJ with
      | 125 :: t2 => some (PyJson.obj [], t2)
      | _ => (parseMembers f t).map (fun p => (PyJson.obj p.1, p.2))) = some vr := hv
  split at hv2
  · cases hv2
    exact ⟨[], rfl⟩
  · simp only [Option.map_eq_some'] at hv2
    obtain ⟨p, _, hvr⟩ := hv2
    exact ⟨p.1, by rw [← hvr]⟩

/-- Helper: a successful single-shot extraction always yields a dict: the
decoded string is brace-delimited (Response Parser invariant), and JSON
decoding of such a string yields an object. -/
theorem extract_metadata_ok_obj (complete : PyStr → Except PyStr PyStr) (post : PyStr)
    (v : PyJson) (h : extract_metadata complete post = Except.ok v) :
    ∃ fs, v = PyJson.obj fs := by
  unfold extract_metadata at h
  split at h
  · cases h
  · split at h
    · cases h
    · next js hjs =>
      split at h
      · cases h
      · split at h
        · next v2 hload =>
          cases h
          obtain ⟨hh, _⟩ := extractJson_delimited _ _ hjs
          cases js with
          | nil => cases hh
          | cons c t' =>
            cases hh
            cases hvr : parseVal ((123 :: t').length + 1) (123 :: t') with
            | none =>
              unfold json_loads at hload
              rw [hvr] at hload
              cases hload
            | some vr =>
              obtain ⟨v3, rest⟩ := vr
              unfold json_loads at hload
              rw [hvr] at hload
              have hload2 : (if (rest.dropWhile isWsJ) = [] then some v3 else none) =
                  some v := hload
              by_cases hrest : (rest.dropWhile isWsJ) = []
              · rw [if_pos hrest] at hload2
                cases hload2
                obtain ⟨fs, hfs⟩ := parseVal_brace_obj (t'.length + 1) t' (v, rest) hvr
                exact ⟨fs, hfs⟩
              · rw [if_neg hrest] at hload2
                cases hload2
        · cases h

/-- Helper: a value returned from inside the retry loop came from a
successful run of the per-attempt extractor. -/
theorem retryLoop_some_ok (runExtract : Nat → Except PyStr PyJson) (maxr : Nat) :
    ∀ r attempt acc v a s, retryLoop runExtract maxr r attempt acc = (some v, a, s) →
      ∃ aa, runExtract aa = Except.ok v := by
  intro r
  induction r with
  | zero =>
    intro attempt acc v a s h
    simp [retryLoop, Prod.mk.injEq] at h
  | succ r ih =>
    intro attempt acc v a s h
    unfold retryLoop at h
    split at h
    · next v2 hv2 =>
      simp only [Prod.mk.injEq] at h
      obtain ⟨hv, _, _⟩ := h
      injection hv with hveq
      exact ⟨attempt, by rw [hv2, hveq]⟩
    · split at h
      · split at h
        · exact ih _ _ v a s h
        · exact ih _ _ v a s h
      · simp [Prod.mk.injEq] at h

/-- Helper: whatever the completion capability does, the metadata the Retry
Controller hands to the Batch Processor is always a dict (the model path
decodes a brace-delimited string; the fallback path builds a dict), so the
merge `\x7b**post, **metadata\x7d` never raises. -/
theorem retry_result_obj (complete : Nat → PyStr → Except PyStr PyStr) (post : PyStr) :
    ∃ mf, (extract_metadata_with_retry
      (fun a => extract_metadata (complete a) post) post).result = PyJson.obj mf := by
  unfold extract_metadata_with_retry
  split
  · next v a s hloop =>
    obtain ⟨aa, haa⟩ := retryLoop_some_ok _ 3 3 0 [] v a s hloop
    obtain ⟨fs, hfs⟩ := extract_metadata_ok_obj (complete aa) post v haa
    exact ⟨fs, by simp [hfs]⟩
  · exact ⟨_, rfl⟩

/-- Claim C9: in the Batch Processor's per-item procedure, the only
unexpected exception that can escape the try arm is a missing `text` field
(first conjunct's hypothesis); the record then appended is exactly the merge
of the original post with a degenerate Fallback Metadata Generator call on
the recoverable text - the empty string - and it carries no topical tags.
When `text` is present no exception occurs at all: the retry metadata is
always a dict and the normal merged record is appended (second conjunct). -/
theorem process_posts_item_failure_fallback
    (complete : Nat → PyStr → Except PyStr PyStr) (post : PyDict) :
    (dictGet post (pstr "text") = none →
      processOne complete post =
        dictMerge post (jsonFields (get_fallback_metadata (pstr ""))) ∧
      dictGet (processOne complete post) (pstr "tags") = some (PyJson.arr [])) ∧
    (∀ v, dictGet post (pstr "text") = some v →
      ∃ mf, (extract_metadata_with_retry
          (fun a => extract_metadata (complete a) (clean_unicode_val v))
          (clean_unicode_val v)).result = PyJson.obj mf ∧
        processOne complete post =
          dictMerge (dictSet post (pstr "text") (PyJson.str (clean_unicode_val v))) mf) := by
  constructor
  · intro h
    have hone : processOne complete post = dictMerge post (exceptFallback (pstr "")) := by
      unfold processOne
      rw [h]
    have hfb : exceptFallback (pstr "") = jsonFields (get_fallback_metadata (pstr "")) := rfl
    refine ⟨by rw [hone, hfb], ?_⟩
    rw [hone, dictGet_dictMerge]
    rfl
  · intro v hv
    obtain ⟨mf, hmf⟩ := retry_result_obj complete (clean_unicode_val v)
    refine ⟨mf, hmf, ?_⟩
    unfold processOne
    rw [hv]
    show (match (extract_metadata_with_retry
        (fun a => extract_metadata (complete a) (clean_unicode_val v))
        (clean_unicode_val v)).result with
      | PyJson.obj mf2 =>
        dictMerge (dictSet post (pstr "text") (PyJson.str (clean_unicode_val v))) mf2
      | _ =>
        dictMerge (dictSet post (pstr "text") (PyJson.str (clean_unicode_val v)))
          (exceptFallback (clean_unicode_val v))) =
      dictMerge (dictSet post (pstr "text") (PyJson.str (clean_unicode_val v))) mf
    rw [hmf]

/-- Witness for C9: a post without a `text` field gets the degenerate
fallback record; a post with one gets the normal merged record. -/
theorem process_posts_item_failure_fallback_w :
    (processOne (fun _ _ => Except.error (pstr "x")) [(pstr "id", PyJson.int 7)] =
        dictMerge [(pstr "id", PyJson.int 7)] (jsonFields (get_fallback_metadata (pstr ""))) ∧
      dictGet (processOne (fun _ _ => Except.error (pstr "x")) [(pstr "id", PyJson.int 7)])
        (pstr "tags") = some (PyJson.arr [])) ∧
    (∃ mf, (extract_metadata_with_retry
        (fun a => extract_metadata ((fun (_ : Nat) (_ : PyStr) => Except.error (pstr "x")) a)
          (clean_unicode_val (PyJson.str (pstr "hey"))))
        (clean_unicode_val (PyJson.str (pstr "hey")))).result = PyJson.obj mf ∧
      processOne (fun _ _ => Except.error (pstr "x")) [(pstr "text", PyJson.str (pstr "hey"))] =
        dictMerge (dictSet [(pstr "text", PyJson.str (pstr "hey"))] (pstr "text")
          (PyJson.str (clean_unicode_val (PyJson.str (pstr "hey"))))) mf) :=
  ⟨(process_posts_item_failure_fallback (fun _ _ => Except.error (pstr "x"))
      [(pstr "id", PyJson.int 7)]).1 rfl,
   (process_posts_item_failure_fallback (fun _ _ => Except.error (pstr "x"))
      [(pstr "text", PyJson.str (pstr "hey"))]).2 (PyJson.str (pstr "hey")) rfl⟩

/-- Witness for C2 (amended) at a concrete succeeding completion: the
success run is exactly a capability success, a parser success, and a decode
success. -/
theorem extract_metadata_error_characterization_w :
    ∃ t js, (fun (_ : PyStr) => (Except.ok (pstr "\x7b\"a\": 5\x7d") : Except PyStr PyStr))
        (renderPrompt (truncatePost (pstr "p"))) = Except.ok t ∧
      extract_json_from_text (pyStrip t) = some js ∧
      json_loads js = some (PyJson.obj [(pstr "a", PyJson.int 5)]) :=
  (extract_metadata_error_characterization
    (fun _ => Except.ok (pstr "\x7b\"a\": 5\x7d")) (pstr "p")).2
    (PyJson.obj [(pstr "a", PyJson.int 5)]) rfl
